import Mathlib

/-!
Shallow embedding of `vulkano/src/descriptor_set/resources.rs`.

The file models the descriptor-set resource table: construction from a
descriptor-set layout (`DescriptorSetResources::new`), application of
descriptor writes (`DescriptorSetResources::update`,
`DescriptorBindingResources::update`, and the nested helper
`write_resources`), and the read accessor (`DescriptorSetResources::binding`).

Rust `Arc<dyn BufferAccess>`, `Arc<dyn BufferViewAbstract>`,
`Arc<dyn ImageViewAbstract>` and `Arc<Sampler>` handles are opaque to this
code (it only clones and stores them), so they are modelled as four type
parameters `B V I S`.  Rust panics become an explicit `Except` error value;
the `FnvHashMap` keyed by `u32` binding numbers is modelled as an association
list with `Nat` keys (keys are unique: they come from `enumerate`).
-/

/-- Modelled from the spec: the resource-kind tag of a layout binding
(`DescriptorType` lives in `descriptor_set/layout.rs`, outside the provided
sources); the eleven variants are exactly those matched exhaustively in
`DescriptorSetResources::new`. -/
inductive DescriptorType where
  | uniformBuffer
  | storageBuffer
  | uniformBufferDynamic
  | storageBufferDynamic
  | uniformTexelBuffer
  | storageTexelBuffer
  | sampledImage
  | storageImage
  | inputAttachment
  | combinedImageSampler
  | sampler
deriving DecidableEq

/-- Modelled from the spec: one binding of a descriptor-set layout, with the
fields read by `DescriptorSetResources::new`: the resource-kind tag, the
declared element count, the variable-length flag, and the immutable-sampler
list (only its emptiness is inspected). -/
structure DescriptorSetLayoutBinding (S : Type) where
  ty : DescriptorType
  descriptor_count : Nat
  variable_count : Bool
  immutable_samplers : List S
deriving DecidableEq

/-- Modelled from the spec: the descriptor-set layout consumed by
`DescriptorSetResources::new`: `bindings` is the indexed sequence returned by
`layout.desc().bindings()` (position = binding number, `none` = binding
absent), and `variable_descriptor_count` is the declared maximum variable
count returned by `layout.variable_descriptor_count()`. -/
structure DescriptorSetLayout (S : Type) where
  bindings : List (Option (DescriptorSetLayoutBinding S))
  variable_descriptor_count : Nat
deriving DecidableEq

/-- The resources bound to a single descriptor-set binding
(`DescriptorBindingResources` in the source): a closed variant over resource
categories, each holding a list of optional handles. -/
inductive DescriptorBindingResources (B V I S : Type) where
  | none
  | buffer (elements : List (Option B))
  | bufferView (elements : List (Option V))
  | imageView (elements : List (Option I))
  | imageViewSampler (elements : List (Option (I × S)))
  | sampler (elements : List (Option S))
deriving DecidableEq

/-- Modelled from the spec: the category-tagged payload of a descriptor write
(`DescriptorWriteElements` in `descriptor_set/sys.rs`, outside the provided
sources); the five variants are exactly those matched in
`DescriptorBindingResources::update`. -/
inductive DescriptorWriteElements (B V I S : Type) where
  | buffer (elements : List B)
  | bufferView (elements : List V)
  | imageView (elements : List I)
  | imageViewSampler (elements : List (I × S))
  | sampler (elements : List S)
deriving DecidableEq

/-- Modelled from the spec: a descriptor write request (`DescriptorWrite` in
`descriptor_set/sys.rs`), with the fields read by the update path: the target
binding number, the starting array element, and the tagged value list. -/
structure DescriptorWrite (B V I S : Type) where
  binding_num : Nat
  first_array_element : Nat
  elements : DescriptorWriteElements B V I S
deriving DecidableEq

/-- The fatal errors (Rust panics) of the update path. -/
inductive UpdateError where
  | unknownBinding (binding_num : Nat)
  | wrongResourceType (binding_num : Nat)
  | outOfBounds
deriving DecidableEq

/-- The resource table of a descriptor set (`DescriptorSetResources`): a map
from binding number to the binding's resources, modelled as an association
list with pairwise-distinct keys. -/
structure DescriptorSetResources (B V I S : Type) where
  descriptors : List (Nat × DescriptorBindingResources B V I S)
deriving DecidableEq

/-- The body of the `match binding_desc.ty` expression inside
`DescriptorSetResources::new`: chooses the slot variant from the binding's
descriptor type and immutable-sampler emptiness, with every element `None`. -/
def bindingResourcesFor {B V I S : Type}
    (binding_desc : DescriptorSetLayoutBinding S) (variable_descriptor_count : Nat) :
    DescriptorBindingResources B V I S :=
  let count := if binding_desc.variable_count then variable_descriptor_count
    else binding_desc.descriptor_count
  match binding_desc.ty with
  | .uniformBuffer | .storageBuffer | .uniformBufferDynamic | .storageBufferDynamic =>
      .buffer (List.replicate count Option.none)
  | .uniformTexelBuffer | .storageTexelBuffer =>
      .bufferView (List.replicate count Option.none)
  | .sampledImage | .storageImage | .inputAttachment =>
      .imageView (List.replicate count Option.none)
  | .combinedImageSampler =>
      if binding_desc.immutable_samplers.isEmpty then
        .imageViewSampler (List.replicate count Option.none)
      else
        .imageView (List.replicate count Option.none)
  | .sampler =>
      if binding_desc.immutable_samplers.isEmpty then
        .sampler (List.replicate count Option.none)
      else
        .none

/-- `DescriptorSetResources::new`: asserts the variable-count precondition
(`Option.none` models the `assert!` panic), then builds one slot per binding
defined in the layout, keyed by its position. -/
def DescriptorSetResources.new {B V I S : Type}
    (layout : DescriptorSetLayout S) (variable_descriptor_count : Nat) :
    Option (DescriptorSetResources B V I S) :=
  if variable_descriptor_count ≤ layout.variable_descriptor_count then
    some ⟨(layout.bindings.enum).filterMap fun bd =>
      bd.2.map fun binding_desc =>
        (bd.1, bindingResourcesFor binding_desc variable_descriptor_count)⟩
  else
    Option.none

/-- The nested helper `write_resources` inside
`DescriptorBindingResources::update`: `resources.get_mut(first..first+len)`
succeeds exactly when `first + len ≤ resources.len()`, and then each position
`first + j` is overwritten with `Some` of element `j`. -/
def write_resources {T : Type} (first : Nat) (resources : List (Option T))
    (elements : List T) : Except UpdateError (List (Option T)) :=
  if first + elements.length ≤ resources.length then
    .ok (resources.take first ++ elements.map some
      ++ resources.drop (first + elements.length))
  else
    .error UpdateError.outOfBounds

/-- `DescriptorBindingResources::update`: dispatches on the pair of the slot
variant and the write's payload variant; matching pairs delegate to
`write_resources`, every other pair is the wrong-resource-type panic. -/
def DescriptorBindingResources.update {B V I S : Type}
    (res : DescriptorBindingResources B V I S) (write : DescriptorWrite B V I S) :
    Except UpdateError (DescriptorBindingResources B V I S) :=
  match res, write.elements with
  | .buffer resources, .buffer elements =>
      (write_resources write.first_array_element resources elements).map .buffer
  | .bufferView resources, .bufferView elements =>
      (write_resources write.first_array_element resources elements).map .bufferView
  | .imageView resources, .imageView elements =>
      (write_resources write.first_array_element resources elements).map .imageView
  | .imageViewSampler resources, .imageViewSampler elements =>
      (write_resources write.first_array_element resources elements).map .imageViewSampler
  | .sampler resources, .sampler elements =>
      (write_resources write.first_array_element resources elements).map .sampler
  | _, _ => .error (UpdateError.wrongResourceType write.binding_num)

/-- Replacement of the value stored under key `b` (the effect of
`get_mut(&b)` followed by in-place mutation); keys are unique, other entries
are untouched. -/
def replaceBinding {B V I S : Type}
    (l : List (Nat × DescriptorBindingResources B V I S)) (b : Nat)
    (s : DescriptorBindingResources B V I S) :
    List (Nat × DescriptorBindingResources B V I S) :=
  l.map fun p => if p.1 = b then (b, s) else p

/-- `DescriptorSetResources::binding`: read accessor, `None` if the binding
does not exist. -/
def DescriptorSetResources.binding {B V I S : Type}
    (res : DescriptorSetResources B V I S) (b : Nat) :
    Option (DescriptorBindingResources B V I S) :=
  List.lookup b res.descriptors

/-- The body of the loop in `DescriptorSetResources::update` for one write:
look the slot up by binding number (`expect` panic when absent), delegate to
the slot's update, and store the updated slot back. -/
def DescriptorSetResources.applyWrite {B V I S : Type}
    (res : DescriptorSetResources B V I S) (write : DescriptorWrite B V I S) :
    Except UpdateError (DescriptorSetResources B V I S) :=
  match res.binding write.binding_num with
  | Option.none => .error (UpdateError.unknownBinding write.binding_num)
  | some slot =>
      (slot.update write).map fun slot' =>
        ⟨replaceBinding res.descriptors write.binding_num slot'⟩

/-- `DescriptorSetResources::update`: applies the writes strictly in order;
a failing write aborts the loop (the panic) but the state reached so far is
kept, returned together with the error. -/
def DescriptorSetResources.update {B V I S : Type}
    (res : DescriptorSetResources B V I S) :
    List (DescriptorWrite B V I S) →
      DescriptorSetResources B V I S × Option UpdateError
  | [] => (res, Option.none)
  | write :: writes =>
      match res.applyWrite write with
      | .ok res' => res'.update writes
      | .error e => (res, some e)

/-- The resource categories a write payload can be tagged with; also the
variant tags of the non-`None` slot variants. -/
inductive DescriptorResourceKind where
  | buffer
  | bufferView
  | imageView
  | imageViewSampler
  | sampler
deriving DecidableEq

/-- The variant tag of a slot; `Option.none` for the `None` variant. -/
def DescriptorBindingResources.kind {B V I S : Type} :
    DescriptorBindingResources B V I S → Option DescriptorResourceKind
  | .none => Option.none
  | .buffer _ => some .buffer
  | .bufferView _ => some .bufferView
  | .imageView _ => some .imageView
  | .imageViewSampler _ => some .imageViewSampler
  | .sampler _ => some .sampler

/-- The resource category of a write payload. -/
def DescriptorWriteElements.kind {B V I S : Type} :
    DescriptorWriteElements B V I S → DescriptorResourceKind
  | .buffer _ => .buffer
  | .bufferView _ => .bufferView
  | .imageView _ => .imageView
  | .imageViewSampler _ => .imageViewSampler
  | .sampler _ => .sampler

/-- The number of values in a write payload (Rust `elements.len()`). -/
def DescriptorWriteElements.len {B V I S : Type} :
    DescriptorWriteElements B V I S → Nat
  | .buffer elements => elements.length
  | .bufferView elements => elements.length
  | .imageView elements => elements.length
  | .imageViewSampler elements => elements.length
  | .sampler elements => elements.length

/-- The number of elements of a slot (`0` for the element-less `None`
variant). -/
def DescriptorBindingResources.elementCount {B V I S : Type} :
    DescriptorBindingResources B V I S → Nat
  | .none => 0
  | .buffer elements => elements.length
  | .bufferView elements => elements.length
  | .imageView elements => elements.length
  | .imageViewSampler elements => elements.length
  | .sampler elements => elements.length

/-- A resource handle of any category, used to view a slot's elements
uniformly across the variants. -/
inductive ResourceValue (B V I S : Type) where
  | buffer (b : B)
  | bufferView (bv : V)
  | imageView (i : I)
  | imageViewSampler (is : I × S)
  | sampler (s : S)
deriving DecidableEq

/-- Uniform view of a slot's element list (empty for the `None` variant). -/
def DescriptorBindingResources.elems {B V I S : Type} :
    DescriptorBindingResources B V I S → List (Option (ResourceValue B V I S))
  | .none => []
  | .buffer elements => elements.map (Option.map ResourceValue.buffer)
  | .bufferView elements => elements.map (Option.map ResourceValue.bufferView)
  | .imageView elements => elements.map (Option.map ResourceValue.imageView)
  | .imageViewSampler elements => elements.map (Option.map ResourceValue.imageViewSampler)
  | .sampler elements => elements.map (Option.map ResourceValue.sampler)

/-- Uniform view of a write payload's value list. -/
def DescriptorWriteElements.vals {B V I S : Type} :
    DescriptorWriteElements B V I S → List (ResourceValue B V I S)
  | .buffer elements => elements.map ResourceValue.buffer
  | .bufferView elements => elements.map ResourceValue.bufferView
  | .imageView elements => elements.map ResourceValue.imageView
  | .imageViewSampler elements => elements.map ResourceValue.imageViewSampler
  | .sampler elements => elements.map ResourceValue.sampler

/-- A concrete five-element buffer slot (all handles modelled as `Nat`),
mirroring the spec's round-trip example. -/
def sampleBuffer5 : DescriptorBindingResources Nat Nat Nat Nat :=
  .buffer [Option.none, Option.none, Option.none, Option.none, Option.none]

/-- A concrete buffer write of three values at offset 1 to binding 0. -/
def sampleWrite3 : DescriptorWrite Nat Nat Nat Nat := ⟨0, 1, .buffer [10, 20, 30]⟩

/-- A concrete sampler-category write to binding 0. -/
def sampleSamplerWrite : DescriptorWrite Nat Nat Nat Nat := ⟨0, 0, .sampler [1]⟩

/-- A concrete empty buffer write at offset 5 to binding 0. -/
def sampleEmptyWrite : DescriptorWrite Nat Nat Nat Nat := ⟨0, 5, .buffer []⟩

/-- A concrete table with the single binding 0 holding `sampleBuffer5`. -/
def sampleTable : DescriptorSetResources Nat Nat Nat Nat := ⟨[(0, sampleBuffer5)]⟩

/-- A concrete buffer write of three values at offset 0 to binding 0. -/
def sampleWriteA : DescriptorWrite Nat Nat Nat Nat := ⟨0, 0, .buffer [1, 2, 3]⟩

/-- A concrete buffer write of two values at offset 2 to binding 0,
overlapping `sampleWriteA` at position 2. -/
def sampleWriteB : DescriptorWrite Nat Nat Nat Nat := ⟨0, 2, .buffer [4, 5]⟩

/-- `sampleTable` after `sampleWriteA`. -/
def sampleTableA : DescriptorSetResources Nat Nat Nat Nat :=
  ⟨[(0, .buffer [some 1, some 2, some 3, Option.none, Option.none])]⟩

/-- `sampleTable` after `sampleWriteA` then `sampleWriteB`. -/
def sampleTableAB : DescriptorSetResources Nat Nat Nat Nat :=
  ⟨[(0, .buffer [some 1, some 2, some 4, some 5, Option.none])]⟩

/-- A concrete layout: a fixed two-element uniform-buffer binding 0, no
binding 1, and a variable-length sampler binding 2 with an immutable sampler;
maximum variable count 5. -/
def sampleLayout : DescriptorSetLayout Nat :=
  ⟨[some ⟨DescriptorType.uniformBuffer, 2, false, []⟩, Option.none,
    some ⟨DescriptorType.sampler, 4, true, [9]⟩], 5⟩

/-- A concrete buffer write naming binding 1, which `sampleTable` lacks. -/
def sampleUnknownWrite : DescriptorWrite Nat Nat Nat Nat := ⟨1, 0, .buffer [42]⟩

/-! ### Helper lemmas about `write_resources` -/

theorem write_resources_ok_iff {T : Type} {first : Nat} {resources : List (Option T)}
    {elements : List T} {out : List (Option T)} :
    write_resources first resources elements = .ok out ↔
      first + elements.length ≤ resources.length ∧
        out = resources.take first ++ elements.map some
          ++ resources.drop (first + elements.length) := by
  unfold write_resources
  split <;> simp_all [eq_comm]

theorem write_resources_length {T : Type} {first : Nat} {resources : List (Option T)}
    {elements : List T} {out : List (Option T)}
    (h : write_resources first resources elements = .ok out) :
    out.length = resources.length := by
  obtain ⟨hle, rfl⟩ := write_resources_ok_iff.mp h
  simp
  omega

theorem write_resources_getElem {T : Type} {first : Nat} {resources : List (Option T)}
    {elements : List T} {out : List (Option T)}
    (h : write_resources first resources elements = .ok out) (i : Nat) :
    out[i]? = if first ≤ i ∧ i < first + elements.length
      then (elements[i - first]?).map some else resources[i]? := by
  obtain ⟨hle, rfl⟩ := write_resources_ok_iff.mp h
  have hlt : (resources.take first).length = first := by simp; omega
  rcases Nat.lt_or_ge i first with hi | hi
  · rw [List.getElem?_append_left (by simp [hlt]; omega),
      List.getElem?_append_left (by omega),
      List.getElem?_take_of_lt hi, if_neg (by omega)]
  · rcases Nat.lt_or_ge i (first + elements.length) with hi2 | hi2
    · rw [List.getElem?_append_left (by simp [hlt]; omega),
        List.getElem?_append_right (by omega), hlt, List.getElem?_map,
        if_pos ⟨hi, hi2⟩]
    · rw [List.getElem?_append_right (by simp [hlt]; omega),
        List.length_append, hlt, List.length_map, List.getElem?_drop,
        if_neg (by omega)]
      congr 1
      omega

theorem write_resources_idem {T : Type} {first : Nat} {resources : List (Option T)}
    {elements : List T} {out : List (Option T)}
    (h : write_resources first resources elements = .ok out) :
    write_resources first out elements = .ok out := by
  have hle := (write_resources_ok_iff.mp h).1
  have hlen := write_resources_length h
  have h2 : ∃ out2, write_resources first out elements = .ok out2 := by
    unfold write_resources
    rw [if_pos (by omega)]
    exact ⟨_, rfl⟩
  obtain ⟨out2, h2⟩ := h2
  rw [h2]
  congr 1
  apply List.ext_getElem?
  intro i
  rw [write_resources_getElem h2 i, write_resources_getElem h i]
  split <;> rfl

theorem write_resources_map {T U : Type} (f : T → U) {first : Nat}
    {resources : List (Option T)} {elements : List T} {out : List (Option T)}
    (h : write_resources first resources elements = .ok out) :
    write_resources first (resources.map (Option.map f)) (elements.map f)
      = .ok (out.map (Option.map f)) := by
  obtain ⟨hle, rfl⟩ := write_resources_ok_iff.mp h
  rw [write_resources_ok_iff]
  constructor
  · simpa using hle
  · simp [List.map_take, List.map_drop, Function.comp_def]

/-! ### Helper lemmas about the association list -/

theorem lookup_cons' {β : Type} (a k : Nat) (v : β) (l : List (Nat × β)) :
    List.lookup a ((k, v) :: l) = if a = k then some v else List.lookup a l := by
  by_cases h : a = k
  · simp [List.lookup, h]
  · have hf : (a == k) = false := beq_eq_false_iff_ne.mpr h
    simp [List.lookup, hf, h]

theorem lookup_replaceBinding {B V I S : Type}
    (l : List (Nat × DescriptorBindingResources B V I S)) (b : Nat)
    (s : DescriptorBindingResources B V I S) (b' : Nat) :
    List.lookup b' (replaceBinding l b s)
      = if b' = b then (List.lookup b l).map (fun _ => s) else List.lookup b' l := by
  induction l with
  | nil => simp [replaceBinding]
  | cons p l ih =>
    obtain ⟨k, v⟩ := p
    simp only [replaceBinding, List.map_cons] at ih ⊢
    by_cases hk : k = b <;> by_cases hb : b' = b <;> by_cases hbk : b' = k <;>
      simp_all [lookup_cons']

theorem lookup_enumFrom_filterMap {A C : Type} (g : Nat → A → C)
    (l : List (Option A)) (n b : Nat) :
    List.lookup b ((List.enumFrom n l).filterMap fun bd =>
        bd.2.map fun d => (bd.1, g bd.1 d))
      = if n ≤ b then (l[b - n]?.bind id).map (g b) else Option.none := by
  induction l generalizing n with
  | nil => simp
  | cons x xs ih =>
    rw [List.enumFrom_cons]
    cases x with
    | none =>
      rw [List.filterMap_cons_none rfl, ih]
      rcases Nat.lt_trichotomy b n with hbn | hbn | hbn
      · rw [if_neg (by omega), if_neg (by omega)]
      · subst hbn
        rw [if_neg (by omega), if_pos (by omega)]
        simp
      · rw [if_pos (by omega), if_pos (by omega)]
        have hsub : b - n = (b - (n + 1)) + 1 := by omega
        rw [hsub, List.getElem?_cons_succ]
    | some d =>
      have hfm : List.filterMap (fun bd => Option.map (fun d => (bd.1, g bd.1 d)) bd.2)
          ((n, some d) :: List.enumFrom (n + 1) xs)
          = (n, g n d) :: List.filterMap (fun bd => Option.map (fun d => (bd.1, g bd.1 d)) bd.2)
              (List.enumFrom (n + 1) xs) :=
        List.filterMap_cons_some rfl
      rw [hfm, lookup_cons', ih]
      rcases Nat.lt_trichotomy b n with hbn | hbn | hbn
      · rw [if_neg (by omega), if_neg (by omega), if_neg (by omega)]
      · subst hbn
        rw [if_pos rfl, if_pos (by omega)]
        simp
      · rw [if_neg (by omega), if_pos (by omega), if_pos (by omega)]
        have hsub : b - n = (b - (n + 1)) + 1 := by omega
        rw [hsub, List.getElem?_cons_succ]

/-! ### Slot-level lemmas -/

theorem except_map_ok {ε α β : Type} {f : α → β} {x : Except ε α} {b : β}
    (h : x.map f = .ok b) : ∃ a, x = .ok a ∧ b = f a := by
  cases x with
  | error e => simp [Except.map] at h
  | ok a =>
    simp [Except.map] at h
    exact ⟨a, rfl, h.symm⟩

theorem elems_length {B V I S : Type} (s : DescriptorBindingResources B V I S) :
    s.elems.length = s.elementCount := by
  cases s <;>
    simp [DescriptorBindingResources.elems, DescriptorBindingResources.elementCount]

theorem vals_length {B V I S : Type} (e : DescriptorWriteElements B V I S) :
    e.vals.length = e.len := by
  cases e <;> simp [DescriptorWriteElements.vals, DescriptorWriteElements.len]

theorem update_ok_elems {B V I S : Type} {s s' : DescriptorBindingResources B V I S}
    {w : DescriptorWrite B V I S} (h : s.update w = .ok s') :
    write_resources w.first_array_element s.elems w.elements.vals = .ok s'.elems := by
  cases s <;> cases hw : w.elements <;>
      simp only [DescriptorBindingResources.update, hw] at h <;>
      try exact Except.noConfusion h
  all_goals
    obtain ⟨rs', hw2, rfl⟩ := except_map_ok h
    simp only [DescriptorBindingResources.elems, DescriptorWriteElements.vals]
    exact write_resources_map _ hw2

theorem update_ok_kind_count {B V I S : Type}
    {s s' : DescriptorBindingResources B V I S} {w : DescriptorWrite B V I S}
    (h : s.update w = .ok s') :
    s'.kind = s.kind ∧ s'.elementCount = s.elementCount := by
  cases s <;> cases hw : w.elements <;>
      simp only [DescriptorBindingResources.update, hw] at h <;>
      try exact Except.noConfusion h
  all_goals
    obtain ⟨rs', hw2, rfl⟩ := except_map_ok h
    exact ⟨rfl, write_resources_length hw2⟩

theorem update_idem_slot {B V I S : Type}
    {s s' : DescriptorBindingResources B V I S} {w : DescriptorWrite B V I S}
    (h : s.update w = .ok s') : s'.update w = .ok s' := by
  cases s <;> cases hw : w.elements <;>
      simp only [DescriptorBindingResources.update, hw] at h <;>
      try exact Except.noConfusion h
  all_goals
    obtain ⟨rs', hw2, rfl⟩ := except_map_ok h
    simp only [DescriptorBindingResources.update, hw]
    rw [write_resources_idem hw2]
    rfl

theorem update_mismatch {B V I S : Type}
    {s : DescriptorBindingResources B V I S} {w : DescriptorWrite B V I S}
    (h : s.kind ≠ some w.elements.kind) :
    s.update w = .error (UpdateError.wrongResourceType w.binding_num) := by
  cases s <;> cases hw : w.elements <;>
    simp_all [DescriptorBindingResources.update, DescriptorBindingResources.kind,
      DescriptorWriteElements.kind]

theorem update_match_bounds {B V I S : Type}
    {s : DescriptorBindingResources B V I S} {w : DescriptorWrite B V I S}
    (h : s.kind = some w.elements.kind) :
    (w.first_array_element + w.elements.len ≤ s.elementCount →
      ∃ s', s.update w = .ok s') ∧
    (s.elementCount < w.first_array_element + w.elements.len →
      s.update w = .error UpdateError.outOfBounds) := by
  cases s <;> cases hw : w.elements <;>
      simp only [DescriptorBindingResources.kind, DescriptorWriteElements.kind, hw] at h <;>
      try simp at h
  all_goals
    simp only [DescriptorBindingResources.update, hw, DescriptorBindingResources.elementCount,
      DescriptorWriteElements.len, write_resources]
    constructor
    · intro hb
      rw [if_pos hb]
      exact ⟨_, rfl⟩
    · intro hb
      rw [if_neg (by omega)]
      rfl

/-! ### Table-level lemmas -/

theorem binding_replace {B V I S : Type} (t : DescriptorSetResources B V I S)
    (b : Nat) (s : DescriptorBindingResources B V I S) (b' : Nat) :
    DescriptorSetResources.binding ⟨replaceBinding t.descriptors b s⟩ b'
      = if b' = b then (t.binding b).map (fun _ => s) else t.binding b' :=
  lookup_replaceBinding t.descriptors b s b'

theorem applyWrite_ok_iff {B V I S : Type} {t t' : DescriptorSetResources B V I S}
    {w : DescriptorWrite B V I S} :
    t.applyWrite w = .ok t' ↔
      ∃ s s', t.binding w.binding_num = some s ∧ s.update w = .ok s' ∧
        t' = ⟨replaceBinding t.descriptors w.binding_num s'⟩ := by
  constructor
  · intro h
    cases hb : t.binding w.binding_num with
    | none =>
      simp only [DescriptorSetResources.applyWrite, hb] at h
      exact Except.noConfusion h
    | some s =>
      simp only [DescriptorSetResources.applyWrite, hb] at h
      obtain ⟨s', hu, rfl⟩ := except_map_ok h
      exact ⟨s, s', rfl, hu, rfl⟩
  · rintro ⟨s, s', hb, hu, rfl⟩
    simp only [DescriptorSetResources.applyWrite, hb, hu]
    rfl

theorem applyWrite_unknown {B V I S : Type} {t : DescriptorSetResources B V I S}
    {w : DescriptorWrite B V I S} (h : t.binding w.binding_num = Option.none) :
    t.applyWrite w = .error (UpdateError.unknownBinding w.binding_num) := by
  simp only [DescriptorSetResources.applyWrite, h]

theorem applyWrite_slot_error {B V I S : Type} {t : DescriptorSetResources B V I S}
    {w : DescriptorWrite B V I S} {s : DescriptorBindingResources B V I S}
    {e : UpdateError} (hb : t.binding w.binding_num = some s)
    (hu : s.update w = .error e) : t.applyWrite w = .error e := by
  simp only [DescriptorSetResources.applyWrite, hb, hu]
  rfl

theorem update_nil {B V I S : Type} (t : DescriptorSetResources B V I S) :
    t.update [] = (t, Option.none) := rfl

theorem update_cons_ok {B V I S : Type} {t t' : DescriptorSetResources B V I S}
    {w : DescriptorWrite B V I S} (h : t.applyWrite w = .ok t')
    (ws : List (DescriptorWrite B V I S)) :
    t.update (w :: ws) = t'.update ws := by
  simp only [DescriptorSetResources.update, h]

theorem update_cons_error {B V I S : Type} {t : DescriptorSetResources B V I S}
    {w : DescriptorWrite B V I S} {e : UpdateError} (h : t.applyWrite w = .error e)
    (ws : List (DescriptorWrite B V I S)) :
    t.update (w :: ws) = (t, some e) := by
  simp only [DescriptorSetResources.update, h]

theorem update_append_ok {B V I S : Type} {t t₁ : DescriptorSetResources B V I S}
    {ws₁ : List (DescriptorWrite B V I S)} (h : t.update ws₁ = (t₁, Option.none))
    (rest : List (DescriptorWrite B V I S)) :
    t.update (ws₁ ++ rest) = t₁.update rest := by
  induction ws₁ generalizing t with
  | nil =>
    rw [update_nil] at h
    cases h
    rfl
  | cons w ws ih =>
    cases ha : t.applyWrite w with
    | ok t' =>
      rw [update_cons_ok ha] at h
      rw [List.cons_append, update_cons_ok ha]
      exact ih h
    | error e =>
      rw [update_cons_error ha] at h
      cases h

theorem replaceBinding_idem {B V I S : Type}
    (l : List (Nat × DescriptorBindingResources B V I S)) (b : Nat)
    (s : DescriptorBindingResources B V I S) :
    replaceBinding (replaceBinding l b s) b s = replaceBinding l b s := by
  unfold replaceBinding
  rw [List.map_map]
  apply List.map_congr_left
  intro p _
  by_cases hp : p.1 = b <;> simp [Function.comp, hp]

theorem applyWrite_preserves {B V I S : Type} {t t' : DescriptorSetResources B V I S}
    {w : DescriptorWrite B V I S} (h : t.applyWrite w = .ok t') (b : Nat) :
    ((t'.binding b).isSome = (t.binding b).isSome) ∧
    ∀ s s', t.binding b = some s → t'.binding b = some s' →
      s'.kind = s.kind ∧ s'.elementCount = s.elementCount := by
  obtain ⟨s0, s1, hb, hu, rfl⟩ := applyWrite_ok_iff.mp h
  by_cases hbb : b = w.binding_num
  · subst hbb
    have hbind : DescriptorSetResources.binding
        (⟨replaceBinding t.descriptors w.binding_num s1⟩ :
          DescriptorSetResources B V I S) w.binding_num = some s1 := by
      rw [binding_replace, if_pos rfl, hb]
      rfl
    constructor
    · rw [hbind, hb]
      rfl
    · intro s s' hs hs'
      rw [hb] at hs
      rw [hbind] at hs'
      have hs2 : s0 = s := by simpa using hs
      have hs3 : s1 = s' := by simpa using hs'
      subst hs2
      subst hs3
      exact update_ok_kind_count hu
  · rw [binding_replace, if_neg hbb]
    refine ⟨rfl, ?_⟩
    intro s s' hs hs'
    rw [hs] at hs'
    have hs2 : s = s' := by simpa using hs'
    subst hs2
    exact ⟨rfl, rfl⟩

/-! ### Construction lemmas -/

theorem new_assert {B V I S : Type} {layout : DescriptorSetLayout S} {v : Nat}
    (h : layout.variable_descriptor_count < v) :
    DescriptorSetResources.new (B := B) (V := V) (I := I) (S := S) layout v
      = Option.none := by
  unfold DescriptorSetResources.new
  rw [if_neg (by omega)]

theorem new_binding {B V I S : Type} {layout : DescriptorSetLayout S} {v : Nat}
    {t : DescriptorSetResources B V I S}
    (h : DescriptorSetResources.new layout v = some t) (b : Nat) :
    t.binding b
      = (layout.bindings[b]?.bind id).map fun d => bindingResourcesFor d v := by
  unfold DescriptorSetResources.new at h
  split at h
  · cases h
    show List.lookup b _ = _
    have hl := lookup_enumFrom_filterMap
      (fun _ d => (bindingResourcesFor d v : DescriptorBindingResources B V I S))
      layout.bindings 0 b
    simpa [List.enum] using hl
  · exact Option.noConfusion h

theorem bindingResourcesFor_count {B V I S : Type}
    (d : DescriptorSetLayoutBinding S) (v : Nat)
    (h : d.ty = DescriptorType.sampler → d.immutable_samplers.isEmpty = true) :
    (bindingResourcesFor (B := B) (V := V) (I := I) (S := S) d v).elementCount
      = if d.variable_count then v else d.descriptor_count := by
  unfold bindingResourcesFor
  cases hty : d.ty
  case combinedImageSampler =>
    split_ifs <;> simp [DescriptorBindingResources.elementCount]
  case sampler =>
    simp [h hty, DescriptorBindingResources.elementCount]
  all_goals simp [DescriptorBindingResources.elementCount]

theorem bindingResourcesFor_unset {B V I S : Type}
    (d : DescriptorSetLayoutBinding S) (v : Nat) (i : Nat)
    (x : Option (ResourceValue B V I S))
    (hx : (bindingResourcesFor (B := B) (V := V) (I := I) (S := S) d v).elems[i]?
      = some x) : x = Option.none := by
  revert hx
  unfold bindingResourcesFor
  cases hty : d.ty
  case combinedImageSampler =>
    intro hx
    split_ifs at hx <;>
      simp only [DescriptorBindingResources.elems, List.map_replicate, Option.map_none',
        List.getElem?_replicate] at hx <;>
      split_ifs at hx <;> simp_all
  case sampler =>
    intro hx
    split_ifs at hx <;>
      simp only [DescriptorBindingResources.elems, List.map_replicate, Option.map_none',
        List.getElem?_replicate] at hx <;>
      try split_ifs at hx
    all_goals simp_all
  all_goals
    intro hx
    simp only [DescriptorBindingResources.elems, List.map_replicate, Option.map_none',
      List.getElem?_replicate] at hx
    split_ifs at hx <;> simp_all

/-! ### Claim theorems -/

/-- C1 counterexample: the claim "construct(L, v) produces a table where each
slot's element count is v if variable-length and otherwise L's fixed count"
is false as stated: for the layout with the single binding
`{ty := sampler, descriptor_count := 2, variable_count := false,
immutable_samplers := [0]}` and `v = 0`, construction succeeds but the slot
for binding 0 is the element-less `None` variant, whose element count is 0,
not the declared fixed count 2. -/
theorem C1_counterexample :
    ¬ (∀ (layout : DescriptorSetLayout Nat) (v : Nat),
        v ≤ layout.variable_descriptor_count →
          ∃ t : DescriptorSetResources Nat Nat Nat Nat,
            DescriptorSetResources.new layout v = some t ∧
            (∀ b, (t.binding b).isSome ↔ ∃ d, layout.bindings[b]? = some (some d)) ∧
            (∀ b d s, layout.bindings[b]? = some (some d) → t.binding b = some s →
              s.elementCount = if d.variable_count then v else d.descriptor_count) ∧
            (∀ b s, t.binding b = some s → ∀ (i : Nat) (x : Option (ResourceValue Nat Nat Nat Nat)),
              s.elems[i]? = some x → x = Option.none)) := by
  intro hcl
  obtain ⟨t, hnew, hkeys, hcount, hunset⟩ :=
    hcl ⟨[some ⟨DescriptorType.sampler, 2, false, [0]⟩], 0⟩ 0 (by decide)
  have ht : t = ⟨[(0, DescriptorBindingResources.none)]⟩ := by
    have hn2 : (DescriptorSetResources.new (B := Nat) (V := Nat) (I := Nat) (S := Nat)
        ⟨[some ⟨DescriptorType.sampler, 2, false, [0]⟩], 0⟩ 0)
        = some ⟨[(0, DescriptorBindingResources.none)]⟩ := by rfl
    rw [hn2] at hnew
    simpa using hnew.symm
  subst ht
  have hc := hcount 0 ⟨DescriptorType.sampler, 2, false, [0]⟩
    DescriptorBindingResources.none rfl rfl
  simp [DescriptorBindingResources.elementCount] at hc

/-- C1, amended: a variable count above the declared maximum is a fatal
error; for `v` within the maximum, construction yields a table whose key set
is exactly the layout's defined bindings, where every slot of every binding
other than a sampler binding with immutable samplers has element count `v`
when the binding is variable-length and the layout's fixed count otherwise
(a sampler binding with immutable samplers yields the element-less `None`
slot instead), and every element of every slot is unset. -/
theorem C1_construct_table_amended {B V I S : Type} :
    (∀ (layout : DescriptorSetLayout S) (v : Nat),
      layout.variable_descriptor_count < v →
        DescriptorSetResources.new (B := B) (V := V) (I := I) (S := S) layout v
          = Option.none) ∧
    (∀ (layout : DescriptorSetLayout S) (v : Nat),
      v ≤ layout.variable_descriptor_count →
        ∃ t : DescriptorSetResources B V I S,
          DescriptorSetResources.new layout v = some t ∧
          (∀ b, (t.binding b).isSome ↔ ∃ d, layout.bindings[b]? = some (some d)) ∧
          (∀ b d s, layout.bindings[b]? = some (some d) → t.binding b = some s →
            ((d.ty = DescriptorType.sampler ∧ d.immutable_samplers.isEmpty = false) →
              s = DescriptorBindingResources.none) ∧
            ((d.ty = DescriptorType.sampler → d.immutable_samplers.isEmpty = true) →
              s.elementCount = if d.variable_count then v else d.descriptor_count)) ∧
          (∀ b s, t.binding b = some s → ∀ (i : Nat) (x : Option (ResourceValue B V I S)),
            s.elems[i]? = some x → x = Option.none)) := by
  constructor
  · intro layout v h
    exact new_assert h
  · intro layout v hv
    have hnew : DescriptorSetResources.new (B := B) (V := V) (I := I) (S := S) layout v
        = some ⟨(layout.bindings.enum).filterMap fun bd =>
            bd.2.map fun binding_desc => (bd.1, bindingResourcesFor binding_desc v)⟩ := by
      unfold DescriptorSetResources.new
      rw [if_pos hv]
    refine ⟨_, hnew, ?_, ?_, ?_⟩
    · intro b
      rw [new_binding hnew b]
      cases hob : layout.bindings[b]? with
      | none => simp
      | some od => cases od <;> simp
    · intro b d s hb hs
      rw [new_binding hnew b, hb] at hs
      have hs2 : bindingResourcesFor d v = s := by simpa using hs
      subst hs2
      constructor
      · rintro ⟨hty, him⟩
        unfold bindingResourcesFor
        rw [hty]
        simp [him]
      · intro h
        exact bindingResourcesFor_count d v h
    · intro b s hs i x hx
      rw [new_binding hnew b] at hs
      cases hob : layout.bindings[b]? with
      | none => rw [hob] at hs; exact Option.noConfusion hs
      | some od =>
        cases od with
        | none => rw [hob] at hs; exact Option.noConfusion hs
        | some d =>
          rw [hob] at hs
          have hs2 : bindingResourcesFor d v = s := by simpa using hs
          subst hs2
          exact bindingResourcesFor_unset d v i x hx

/-- C2: at construction, a combined-image-sampler binding whose layout
supplies immutable samplers yields an `ImageView`-variant slot, and a write
tagged `ImageViewSampler` to that slot fails with the resource-kind-mismatch
error; a sampler binding with immutable samplers yields the `None`-variant
slot, and every write of every category to it fails with the
resource-kind-mismatch error. -/
theorem C2_immutable_sampler_slots {B V I S : Type}
    (d : DescriptorSetLayoutBinding S) (v : Nat)
    (him : d.immutable_samplers.isEmpty = false) :
    (d.ty = DescriptorType.combinedImageSampler →
      bindingResourcesFor (B := B) (V := V) (I := I) (S := S) d v
        = .imageView (List.replicate
            (if d.variable_count then v else d.descriptor_count) Option.none) ∧
      ∀ w : DescriptorWrite B V I S, w.elements.kind = .imageViewSampler →
        (bindingResourcesFor (B := B) (V := V) (I := I) (S := S) d v).update w
          = .error (UpdateError.wrongResourceType w.binding_num)) ∧
    (d.ty = DescriptorType.sampler →
      bindingResourcesFor (B := B) (V := V) (I := I) (S := S) d v
        = DescriptorBindingResources.none ∧
      ∀ w : DescriptorWrite B V I S,
        (bindingResourcesFor (B := B) (V := V) (I := I) (S := S) d v).update w
          = .error (UpdateError.wrongResourceType w.binding_num)) := by
  constructor
  · intro hty
    have hslot : bindingResourcesFor (B := B) (V := V) (I := I) (S := S) d v
        = .imageView (List.replicate
            (if d.variable_count then v else d.descriptor_count) Option.none) := by
      unfold bindingResourcesFor
      rw [hty]
      simp [him]
    refine ⟨hslot, ?_⟩
    intro w hwk
    rw [hslot]
    apply update_mismatch
    rw [hwk]
    simp [DescriptorBindingResources.kind]
  · intro hty
    have hslot : bindingResourcesFor (B := B) (V := V) (I := I) (S := S) d v
        = DescriptorBindingResources.none := by
      unfold bindingResourcesFor
      rw [hty]
      simp [him]
    refine ⟨hslot, ?_⟩
    intro w
    rw [hslot]
    apply update_mismatch
    simp [DescriptorBindingResources.kind]

/-- C3: for a write whose resource category equals the slot's variant tag and
whose range `[offset, offset+count)` lies within the slot's element count,
the write succeeds, sets position `i` of the range to `Some` of supplied
value `i - offset`, overwriting whatever was there, and leaves every position
outside the range exactly as it was. -/
theorem C3_write_in_range {B V I S : Type}
    {s : DescriptorBindingResources B V I S} {w : DescriptorWrite B V I S}
    (hk : s.kind = some w.elements.kind)
    (hb : w.first_array_element + w.elements.len ≤ s.elementCount) :
    ∃ s', s.update w = .ok s' ∧
      (∀ i, w.first_array_element ≤ i → i < w.first_array_element + w.elements.len →
        s'.elems[i]? = (w.elements.vals[i - w.first_array_element]?).map some) ∧
      (∀ i, i < w.first_array_element ∨ w.first_array_element + w.elements.len ≤ i →
        s'.elems[i]? = s.elems[i]?) := by
  obtain ⟨s', hs'⟩ := (update_match_bounds hk).1 hb
  refine ⟨s', hs', ?_, ?_⟩
  · intro i h1 h2
    have hg := write_resources_getElem (update_ok_elems hs') i
    rw [vals_length] at hg
    rw [hg, if_pos ⟨h1, h2⟩]
  · intro i h1
    have hg := write_resources_getElem (update_ok_elems hs') i
    rw [vals_length] at hg
    rw [hg, if_neg (by omega)]

/-- C4: a write whose resource category differs from the slot's variant tag
fails with the resource-kind-mismatch error naming the write's binding
number, and the table holding that slot is left unmodified by the failing
update call. -/
theorem C4_kind_mismatch {B V I S : Type}
    {s : DescriptorBindingResources B V I S} {w : DescriptorWrite B V I S}
    (h : s.kind ≠ some w.elements.kind) :
    s.update w = .error (UpdateError.wrongResourceType w.binding_num) ∧
    ∀ t : DescriptorSetResources B V I S, t.binding w.binding_num = some s →
      t.update [w] = (t, some (UpdateError.wrongResourceType w.binding_num)) := by
  have hm := update_mismatch h
  refine ⟨hm, ?_⟩
  intro t hb
  rw [update_cons_error (applyWrite_slot_error hb hm)]

/-- C5: a kind-matching write with `offset + count ≤ length` succeeds, while
one with `offset + count > length` fails with the out-of-bounds error and
leaves the table holding that slot unmodified. -/
theorem C5_bounds {B V I S : Type}
    {s : DescriptorBindingResources B V I S} {w : DescriptorWrite B V I S}
    (hk : s.kind = some w.elements.kind) :
    (w.first_array_element + w.elements.len ≤ s.elementCount →
      ∃ s', s.update w = .ok s') ∧
    (s.elementCount < w.first_array_element + w.elements.len →
      s.update w = .error UpdateError.outOfBounds ∧
      ∀ t : DescriptorSetResources B V I S, t.binding w.binding_num = some s →
        t.update [w] = (t, some UpdateError.outOfBounds)) := by
  refine ⟨(update_match_bounds hk).1, ?_⟩
  intro hb
  have he := (update_match_bounds hk).2 hb
  refine ⟨he, ?_⟩
  intro t hbind
  rw [update_cons_error (applyWrite_slot_error hbind he)]

/-- C6: the update call processes writes strictly in the given order: a write
naming a binding absent from the table fails with the unknown-binding error,
and when a write fails, the writes before it in the same call remain applied
(the table is exactly the state they produced) while it and all later writes
have no effect. -/
theorem C6_sequential_order {B V I S : Type} :
    (∀ (t : DescriptorSetResources B V I S) (w : DescriptorWrite B V I S)
        (ws : List (DescriptorWrite B V I S)),
      t.binding w.binding_num = Option.none →
        t.update (w :: ws) = (t, some (UpdateError.unknownBinding w.binding_num))) ∧
    (∀ (t t₁ : DescriptorSetResources B V I S)
        (ws₁ : List (DescriptorWrite B V I S)) (w : DescriptorWrite B V I S)
        (ws₂ : List (DescriptorWrite B V I S)) (e : UpdateError),
      t.update ws₁ = (t₁, Option.none) → t₁.applyWrite w = .error e →
        t.update (ws₁ ++ w :: ws₂) = (t₁, some e)) := by
  constructor
  · intro t w ws h
    rw [update_cons_error (applyWrite_unknown h)]
  · intro t t₁ ws₁ w ws₂ e h1 h2
    rw [update_append_ok h1, update_cons_error h2]

/-- C7: applying write A and then an overlapping write B to the same binding
of a table yields a slot holding B's values at every position of B's range
(in particular at every position covered by both) and A's values at every
position covered only by A's range. -/
theorem C7_last_write_wins {B V I S : Type}
    {t t₁ t₂ : DescriptorSetResources B V I S} {a b : DescriptorWrite B V I S}
    (hab : a.binding_num = b.binding_num)
    (ha : t.applyWrite a = .ok t₁) (hb : t₁.applyWrite b = .ok t₂)
    (hoverlap : b.first_array_element < a.first_array_element + a.elements.len ∧
      a.first_array_element < b.first_array_element + b.elements.len) :
    ∃ s₂, t₂.binding b.binding_num = some s₂ ∧
      (∀ i, b.first_array_element ≤ i → i < b.first_array_element + b.elements.len →
        s₂.elems[i]? = (b.elements.vals[i - b.first_array_element]?).map some) ∧
      (∀ i, a.first_array_element ≤ i → i < a.first_array_element + a.elements.len →
        ¬(b.first_array_element ≤ i ∧ i < b.first_array_element + b.elements.len) →
        s₂.elems[i]? = (a.elements.vals[i - a.first_array_element]?).map some) := by
  obtain ⟨s0, s1, hb0, hu1, rfl⟩ := applyWrite_ok_iff.mp ha
  obtain ⟨s1', s2, hb1, hu2, rfl⟩ := applyWrite_ok_iff.mp hb
  have hbind1 : List.lookup b.binding_num
      (replaceBinding t.descriptors a.binding_num s1) = some s1 := by
    rw [lookup_replaceBinding, ← hab, if_pos rfl]
    have hl : List.lookup a.binding_num t.descriptors = some s0 := hb0
    rw [hl]
    rfl
  have hs1 : s1' = s1 := by
    have hb1' : List.lookup b.binding_num
        (replaceBinding t.descriptors a.binding_num s1) = some s1' := hb1
    rw [hbind1] at hb1'
    simpa using hb1'.symm
  rw [hs1] at hu2
  refine ⟨s2, ?_, ?_, ?_⟩
  · show List.lookup b.binding_num
      (replaceBinding (replaceBinding t.descriptors a.binding_num s1)
        b.binding_num s2) = some s2
    rw [lookup_replaceBinding, if_pos rfl, hbind1]
    rfl
  · intro i h1 h2
    have hg := write_resources_getElem (update_ok_elems hu2) i
    rw [vals_length] at hg
    rw [hg, if_pos ⟨h1, h2⟩]
  · intro i h1 h2 h3
    have hg2 := write_resources_getElem (update_ok_elems hu2) i
    have hg1 := write_resources_getElem (update_ok_elems hu1) i
    rw [vals_length] at hg2 hg1
    rw [hg2, if_neg h3, hg1, if_pos ⟨h1, h2⟩]

/-- C8: write application is idempotent: when a write applies successfully to
a table, applying the identical write twice in succession yields exactly the
same final table state as applying it once (and both calls succeed). -/
theorem C8_idempotent {B V I S : Type} {t t₁ : DescriptorSetResources B V I S}
    {w : DescriptorWrite B V I S} (h : t.applyWrite w = .ok t₁) :
    t.update [w, w] = (t₁, Option.none) ∧ t.update [w] = (t₁, Option.none) := by
  have h2 : t₁.applyWrite w = .ok t₁ := by
    obtain ⟨s0, s1, hb, hu, rfl⟩ := applyWrite_ok_iff.mp h
    apply applyWrite_ok_iff.mpr
    refine ⟨s1, s1, ?_, update_idem_slot hu, ?_⟩
    · show List.lookup w.binding_num
        (replaceBinding t.descriptors w.binding_num s1) = some s1
      rw [lookup_replaceBinding, if_pos rfl]
      have hl : List.lookup w.binding_num t.descriptors = some s0 := hb
      rw [hl]
      rfl
    · show (⟨replaceBinding t.descriptors w.binding_num s1⟩ :
        DescriptorSetResources B V I S)
        = ⟨replaceBinding (replaceBinding t.descriptors w.binding_num s1)
            w.binding_num s1⟩
      rw [replaceBinding_idem]
  constructor
  · rw [update_cons_ok h, update_cons_ok h2, update_nil]
  · rw [update_cons_ok h, update_nil]

/-- C9: every update call, successful or failing, preserves the table's
structural invariants: the key set gains and loses no binding, and each
binding's slot keeps its variant tag and its element count. -/
theorem C9_invariants {B V I S : Type} (t : DescriptorSetResources B V I S)
    (ws : List (DescriptorWrite B V I S)) (b : Nat) :
    (((t.update ws).1.binding b).isSome = (t.binding b).isSome) ∧
    ∀ s s', t.binding b = some s → (t.update ws).1.binding b = some s' →
      s'.kind = s.kind ∧ s'.elementCount = s.elementCount := by
  induction ws generalizing t with
  | nil =>
    rw [update_nil]
    refine ⟨rfl, ?_⟩
    intro s s' hs hs'
    rw [hs] at hs'
    have h2 : s = s' := by simpa using hs'
    subst h2
    exact ⟨rfl, rfl⟩
  | cons w ws ih =>
    cases ha : t.applyWrite w with
    | ok t' =>
      rw [update_cons_ok ha]
      have hp := applyWrite_preserves ha b
      have hi := ih t'
      refine ⟨hi.1.trans hp.1, ?_⟩
      intro s s' hs hsfin
      have hsome : (t'.binding b).isSome := by rw [hp.1, hs]; rfl
      obtain ⟨s₁, hs₁⟩ := Option.isSome_iff_exists.mp hsome
      have h1 := hp.2 s s₁ hs hs₁
      have h2 := hi.2 s₁ s' hs₁ hsfin
      exact ⟨h2.1.trans h1.1, h2.2.trans h1.2⟩
    | error e =>
      rw [update_cons_error ha]
      refine ⟨rfl, ?_⟩
      intro s s' hs hs'
      rw [hs] at hs'
      have h2 : s = s' := by simpa using hs'
      subst h2
      exact ⟨rfl, rfl⟩

/-- C10: a kind-matching write with an empty value list succeeds and leaves
the slot unchanged whenever its offset is at most the slot's element count
(including offset = count), but fails with the out-of-bounds error when the
offset exceeds the element count, even though no element would be touched. -/
theorem C10_empty_write {B V I S : Type}
    {s : DescriptorBindingResources B V I S} {w : DescriptorWrite B V I S}
    (hk : s.kind = some w.elements.kind) (hc : w.elements.len = 0) :
    (w.first_array_element ≤ s.elementCount → s.update w = .ok s) ∧
    (s.elementCount < w.first_array_element →
      s.update w = .error UpdateError.outOfBounds) := by
  constructor
  · intro hb
    rcases s with _ | ⟨rs⟩ | ⟨rs⟩ | ⟨rs⟩ | ⟨rs⟩ | ⟨rs⟩ <;>
        rcases hw : w.elements with ⟨es⟩ | ⟨es⟩ | ⟨es⟩ | ⟨es⟩ | ⟨es⟩ <;>
        simp only [DescriptorBindingResources.kind, DescriptorWriteElements.kind, hw] at hk <;>
        try simp at hk
    all_goals
      simp only [DescriptorWriteElements.len, hw] at hc
      obtain rfl := List.length_eq_zero.mp hc
      simp only [DescriptorBindingResources.elementCount] at hb
      simp only [DescriptorBindingResources.update, hw, write_resources, List.length_nil,
        Nat.add_zero, List.map_nil, List.append_nil, List.take_append_drop]
      rw [if_pos hb]
      rfl
  · intro hb
    exact (update_match_bounds hk).2 (by omega)

/-! ### Witnesses -/

/-- C2 witness: a combined-image-sampler binding of fixed count 2 with one
immutable sampler yields an `ImageView` slot of two unset elements. -/
theorem C2_witness :
    bindingResourcesFor (B := Nat) (V := Nat) (I := Nat) (S := Nat)
      ⟨DescriptorType.combinedImageSampler, 2, false, [7]⟩ 3
      = .imageView (List.replicate 2 Option.none) :=
  ((C2_immutable_sampler_slots ⟨DescriptorType.combinedImageSampler, 2, false, [7]⟩ 3
    rfl).1 rfl).1

/-- C3 witness: writing three buffer values at offset 1 into a five-element
buffer slot succeeds, sets positions 1..3 and leaves positions 0 and 4
untouched. -/
theorem C3_witness :
    ∃ s', sampleBuffer5.update sampleWrite3 = .ok s' ∧
      (∀ i, sampleWrite3.first_array_element ≤ i →
        i < sampleWrite3.first_array_element + sampleWrite3.elements.len →
        s'.elems[i]?
          = (sampleWrite3.elements.vals[i - sampleWrite3.first_array_element]?).map some) ∧
      (∀ i, i < sampleWrite3.first_array_element ∨
        sampleWrite3.first_array_element + sampleWrite3.elements.len ≤ i →
        s'.elems[i]? = sampleBuffer5.elems[i]?) :=
  C3_write_in_range (by rfl) (by decide)

/-- C4 witness: a sampler-category write to a buffer slot fails with the
resource-kind-mismatch error and leaves the table unchanged. -/
theorem C4_witness :
    sampleBuffer5.update sampleSamplerWrite
      = .error (UpdateError.wrongResourceType sampleSamplerWrite.binding_num) ∧
    ∀ t : DescriptorSetResources Nat Nat Nat Nat,
      t.binding sampleSamplerWrite.binding_num = some sampleBuffer5 →
        t.update [sampleSamplerWrite]
          = (t, some (UpdateError.wrongResourceType sampleSamplerWrite.binding_num)) :=
  C4_kind_mismatch (by decide)

/-- C5 witness: the boundary behavior of a kind-matching buffer write on a
five-element buffer slot. -/
theorem C5_witness :
    (sampleWrite3.first_array_element + sampleWrite3.elements.len
        ≤ sampleBuffer5.elementCount →
      ∃ s', sampleBuffer5.update sampleWrite3 = .ok s') ∧
    (sampleBuffer5.elementCount
        < sampleWrite3.first_array_element + sampleWrite3.elements.len →
      sampleBuffer5.update sampleWrite3 = .error UpdateError.outOfBounds ∧
      ∀ t : DescriptorSetResources Nat Nat Nat Nat,
        t.binding sampleWrite3.binding_num = some sampleBuffer5 →
          t.update [sampleWrite3] = (t, some UpdateError.outOfBounds)) :=
  C5_bounds (by rfl)

/-- C7 witness: writing values 1,2,3 at offset 0 and then 4,5 at offset 2
into the same binding yields 4,5 at the overlap positions 2,3 and 1,2 at the
positions covered only by the first write. -/
theorem C7_witness :
    ∃ s₂, sampleTableAB.binding sampleWriteB.binding_num = some s₂ ∧
      (∀ i, sampleWriteB.first_array_element ≤ i →
        i < sampleWriteB.first_array_element + sampleWriteB.elements.len →
        s₂.elems[i]?
          = (sampleWriteB.elements.vals[i - sampleWriteB.first_array_element]?).map some) ∧
      (∀ i, sampleWriteA.first_array_element ≤ i →
        i < sampleWriteA.first_array_element + sampleWriteA.elements.len →
        ¬(sampleWriteB.first_array_element ≤ i ∧
          i < sampleWriteB.first_array_element + sampleWriteB.elements.len) →
        s₂.elems[i]?
          = (sampleWriteA.elements.vals[i - sampleWriteA.first_array_element]?).map some) :=
  @C7_last_write_wins Nat Nat Nat Nat sampleTable sampleTableA sampleTableAB
    sampleWriteA sampleWriteB rfl rfl rfl (by decide)

/-- C8 witness: applying the same three-value buffer write twice to the
sample table ends in exactly the state of applying it once. -/
theorem C8_witness :
    sampleTable.update [sampleWriteA, sampleWriteA] = (sampleTableA, Option.none) ∧
    sampleTable.update [sampleWriteA] = (sampleTableA, Option.none) :=
  C8_idempotent rfl

/-- C10 witness: an empty buffer write at offset 5 into a five-element
buffer slot succeeds and leaves the slot unchanged; at offsets beyond the
element count it would fail with the out-of-bounds error. -/
theorem C10_witness :
    (sampleEmptyWrite.first_array_element ≤ sampleBuffer5.elementCount →
      sampleBuffer5.update sampleEmptyWrite = .ok sampleBuffer5) ∧
    (sampleBuffer5.elementCount < sampleEmptyWrite.first_array_element →
      sampleBuffer5.update sampleEmptyWrite = .error UpdateError.outOfBounds) :=
  C10_empty_write (by rfl) (by rfl)

/-- C1 witness: on `sampleLayout` (maximum variable count 5), construction
with variable count 6 is the fatal assertion, and construction with variable
count 3 yields the amended table shape. -/
theorem C1_witness :
    (DescriptorSetResources.new (B := Nat) (V := Nat) (I := Nat) (S := Nat)
        sampleLayout 6 = Option.none) ∧
    ∃ t : DescriptorSetResources Nat Nat Nat Nat,
      DescriptorSetResources.new sampleLayout 3 = some t ∧
      (∀ b, (t.binding b).isSome ↔ ∃ d, sampleLayout.bindings[b]? = some (some d)) ∧
      (∀ b d s, sampleLayout.bindings[b]? = some (some d) → t.binding b = some s →
        ((d.ty = DescriptorType.sampler ∧ d.immutable_samplers.isEmpty = false) →
          s = DescriptorBindingResources.none) ∧
        ((d.ty = DescriptorType.sampler → d.immutable_samplers.isEmpty = true) →
          s.elementCount = if d.variable_count then 3 else d.descriptor_count)) ∧
      (∀ b s, t.binding b = some s →
        ∀ (i : Nat) (x : Option (ResourceValue Nat Nat Nat Nat)),
          s.elems[i]? = some x → x = Option.none) :=
  ⟨C1_construct_table_amended.1 sampleLayout 6 (by decide),
   C1_construct_table_amended.2 sampleLayout 3 (by decide)⟩

/-- C6 witness: a write naming the absent binding 1 fails with the
unknown-binding error and leaves the sample table unchanged; placed after
`sampleWriteA` and before `sampleWriteB` in one call, it stops the call in
exactly the state `sampleWriteA` produced. -/
theorem C6_witness :
    sampleTable.update [sampleUnknownWrite]
      = (sampleTable, some (UpdateError.unknownBinding 1)) ∧
    sampleTable.update ([sampleWriteA] ++ sampleUnknownWrite :: [sampleWriteB])
      = (sampleTableA, some (UpdateError.unknownBinding 1)) :=
  ⟨C6_sequential_order.1 sampleTable sampleUnknownWrite [] rfl,
   C6_sequential_order.2 sampleTable sampleTableA [sampleWriteA] sampleUnknownWrite
     [sampleWriteB] (UpdateError.unknownBinding 1) rfl rfl⟩

/-- C9 witness: an update call whose second write fails with a kind mismatch
still preserves binding 0's presence, variant tag and element count on the
sample table. -/
theorem C9_witness :
    (((sampleTable.update [sampleWriteA, sampleSamplerWrite]).1.binding 0).isSome
      = (sampleTable.binding 0).isSome) ∧
    ∀ s s', sampleTable.binding 0 = some s →
      (sampleTable.update [sampleWriteA, sampleSamplerWrite]).1.binding 0 = some s' →
        s'.kind = s.kind ∧ s'.elementCount = s.elementCount :=
  C9_invariants sampleTable [sampleWriteA, sampleSamplerWrite] 0
